import Mathlib

/-!
Verification development for `tools/compliance/write_sbom.py` (SBOM generator).

Python strings are modelled as `List Char` (Python strings are sequences of
code points, so character-indexed operations line up).  Loosely structured
JSON data is modelled by the inductive `JValue`; Python operations that can
raise (`dict.get` on a non-dict, subscripting, calling a `str` method on a
non-string, indexing an empty list) are modelled in the `Except String`
monad, so that a raised exception aborts the whole run exactly as in Python.
-/

namespace WriteSbom

/-! ## Python string primitives -/

/-- Whitespace test used by Python `str.strip()` / `str.split()`. -/
def isSpace (c : Char) : Bool :=
  c = ' ' ∨ c = '\t' ∨ c = '\n' ∨ c = '\r' ∨ c = '\x0b' ∨ c = '\x0c'

/-- Auxiliary scan for Python `str.find`: checks successive positions. -/
def pyFindAux (pat : List Char) : List Char → Nat → Option Nat
  | [], acc => if pat.isPrefixOf [] then some acc else none
  | c :: t, acc =>
    if pat.isPrefixOf (c :: t) then some acc else pyFindAux pat t (acc + 1)

/-- Python `s.find(pat)`: index of the first occurrence, or `-1`. -/
def pyFind (s pat : List Char) : Int :=
  match pyFindAux pat s 0 with
  | some i => (i : Int)
  | none => -1

/-- Python `s.split(sep, 1)` for a one-character separator. -/
def pySplit1 (sep : Char) : List Char → List (List Char)
  | [] => [[]]
  | c :: t =>
    if c = sep then [[], t]
    else
      match pySplit1 sep t with
      | h :: r => (c :: h) :: r
      | [] => [[c]]

/-- Python `s.split(sep, 1)` for a multi-character separator, as the split
pair when the separator occurs (`none` when `sep` does not occur in `s`). -/
def pySplitOnce : List Char → List Char → Option (List Char × List Char)
  | s, sep =>
    if sep.isPrefixOf s then some ([], s.drop sep.length)
    else
      match s with
      | [] => none
      | c :: t => (pySplitOnce t sep).map (fun p => (c :: p.1, p.2))

/-- Python `s.split(sep)` (unbounded) for a one-character separator. -/
def pySplitAll (sep : Char) : List Char → List (List Char)
  | [] => [[]]
  | c :: t =>
    if c = sep then [] :: pySplitAll sep t
    else
      match pySplitAll sep t with
      | h :: r => (c :: h) :: r
      | [] => [[c]]

/-- Auxiliary for Python whitespace `split()`: accumulates the current word
(reversed) and cuts at whitespace, discarding empty words. -/
def splitWSAux : List Char → List Char → List (List Char)
  | [], acc => if acc.isEmpty then [] else [acc.reverse]
  | c :: t, acc =>
    if isSpace c then
      if acc.isEmpty then splitWSAux t [] else acc.reverse :: splitWSAux t []
    else splitWSAux t (c :: acc)

/-- Python `s.split()`: split on whitespace runs, discarding empty strings. -/
def pySplitWS (s : List Char) : List (List Char) := splitWSAux s []

/-- Drop the trailing run of characters satisfying `p` (right strip). -/
def rstripP (p : Char → Bool) (l : List Char) : List Char :=
  (l.reverse.dropWhile p).reverse

/-- Python `s.strip(chars)` generalised over a character predicate. -/
def pyStrip (p : Char → Bool) (l : List Char) : List Char :=
  rstripP p (l.dropWhile p)

/-- Python `sep.join(parts)` for a one-character separator. -/
def joinSep (sep : Char) : List (List Char) → List Char
  | [] => []
  | [x] => x
  | x :: y :: rest => x ++ sep :: joinSep sep (y :: rest)

/-- Python `s.replace(chr(95), chr(45))`: rewrite underscores to hyphens. -/
def hyphenate (s : List Char) : List Char :=
  s.map (fun c => if c = '_' then '-' else c)

/-! ## JSON-like values and Python dynamic operations -/

/-- Parsed JSON values, the dynamic data the tool walks over. -/
inductive JValue where
  | null : JValue
  | bool (b : Bool) : JValue
  | num (n : Int) : JValue
  | str (s : List Char) : JValue
  | arr (xs : List JValue) : JValue
  | obj (kvs : List (String × JValue)) : JValue

/-- Python truthiness of a value (`if not x`). -/
def JValue.truthy : JValue → Bool
  | .null => false
  | .bool b => b
  | .num n => n ≠ 0
  | .str s => ¬ s.isEmpty
  | .arr xs => ¬ xs.isEmpty
  | .obj kvs => ¬ kvs.isEmpty

/-- Python `v.get(key, dflt)`: raises `AttributeError` unless `v` is a dict. -/
def jget (v : JValue) (key : String) (dflt : JValue) : Except String JValue :=
  match v with
  | .obj kvs => .ok ((kvs.lookup key).getD dflt)
  | _ => .error "AttributeError: object has no attribute get"

/-- Python `v.items()`: raises `AttributeError` unless `v` is a dict. -/
def jitems (v : JValue) : Except String (List (String × JValue)) :=
  match v with
  | .obj kvs => .ok kvs
  | _ => .error "AttributeError: object has no attribute items"

/-- Python `v[0]`: first element of a list or first character of a string;
anything else raises. -/
def py_subscript0 (v : JValue) : Except String JValue :=
  match v with
  | .arr (x :: _) => .ok x
  | .arr [] => .error "IndexError: list index out of range"
  | .str (c :: _) => .ok (.str [c])
  | .str [] => .error "IndexError: string index out of range"
  | _ => .error "TypeError: object is not subscriptable"

/-- Calling a `str` method on a value: raises unless it is a string. -/
def as_str (v : JValue) : Except String (List Char) :=
  match v with
  | .str s => .ok s
  | _ => .error "AttributeError: object is not a str"

/-! ## URL/Path parsers (write_sbom.py lines 37-78) -/

/-- Lines 40-48: locate a repository marker and return the index just past
it, `-1` when neither marker occurs (the loop tries marker 2 only when
marker 1 is absent). -/
def maven_marker_idx (url : List Char) : Int :=
  let i := pyFind url ("/maven2/".data)
  if i ≥ 0 then i + 8
  else
    let j := pyFind url ("/repository/".data)
    if j ≥ 0 then j + 12 else -1

/-- Lines 50-51: the path after the marker, stripped of outer slashes and
split on slashes; `none` when no marker was found. -/
def maven_path_segments (url : List Char) : Option (List (List Char)) :=
  let idx := maven_marker_idx url
  if idx = -1 then none
  else some (pySplitAll '/' (pyStrip (fun c => c = '/') (url.drop idx.toNat)))

/-- Lines 37-62, `extract_maven_info_from_url`.  The Python negative indices
`segments[-1] / [-2] / [-3]` and the slice `segments[:-3]` are read off the
reversed segment list; a reversed list with fewer than four cells is exactly
the `len(segments) < 4` early return. -/
def extract_maven_info_from_url (url : List Char) :
    Option (List Char) × Option (List Char) × Option (List Char) × Bool :=
  match maven_path_segments url with
  | none => (none, none, none, false)
  | some segments =>
    match segments.reverse with
    | filename :: version :: artifactId :: g :: gs =>
      (some (joinSep '.' ((g :: gs).reverse)), some (hyphenate artifactId),
        some version, ("sources.jar".data).isSuffixOf filename)
    | _ => (none, none, none, false)

/-- Lines 65-78, `parse_release_filename`: split at the first slash into
(version, remainder); strip a literal `.tar.gz` suffix; rewrite underscores
to hyphens.  Returns `(name, version)` in that order, as the source does. -/
def parse_release_filename (release_filename : List Char) :
    Option (List Char) × Option (List Char) :=
  match pySplit1 '/' release_filename with
  | [version, name_with_ext] =>
    let name :=
      if (".tar.gz".data).isSuffixOf name_with_ext then
        name_with_ext.take (name_with_ext.length - 7)
      else name_with_ext
    (some (hyphenate name), some version)
  | _ => (none, none)

/-! ## Dependency records (write_sbom.py lines 100-167)

The source builds dicts with a string `type` discriminator and fixed keys
per type; following the closed variant set those dicts range over, they are
modelled as a tagged union.  The `python_no_pip` URL is stored verbatim from
the lock entry (the source never applies a string operation to it), so it
stays a raw `JValue`. -/

inductive Dependency where
  | maven (groupId artifactId version url : List Char) (is_sources : Bool)
  | python (name version url : List Char)
  | python_no_pip (name version : List Char) (url : JValue)
  | other

/-- Line 138: the synthesized pip download URL
`f"{base_url}/{name}/{version}/{name}-{version}.tar.gz"`. -/
def pip_url (base_url name version : List Char) : List Char :=
  base_url ++ '/' :: name ++ '/' :: version ++ '/' :: name ++ '-' :: version
    ++ ".tar.gz".data

/-- Lines 92-107: one Maven `generatedRepoSpecs` entry to an optional
parsed `(groupId, artifactId, version, url, is_sources)` tuple (`none` =
the entry is skipped). -/
def maven_entry (dep_info : JValue) :
    Except String (Option (List Char × List Char × List Char × List Char × Bool)) :=
  match jget dep_info "attributes" (.obj []) with
  | .error e => .error e
  | .ok attributes =>
    match jget attributes "urls" (.arr []) with
    | .error e => .error e
    | .ok urls =>
      if ¬ urls.truthy then .ok none
      else
        match py_subscript0 urls with
        | .error e => .error e
        | .ok u =>
          match as_str u with
          | .error e => .error e
          | .ok url =>
            match extract_maven_info_from_url url with
            | (some groupId, some artifactId, some version, is_sources) =>
              if groupId.isEmpty ∨ artifactId.isEmpty ∨ version.isEmpty then
                .ok none
              else .ok (some (groupId, artifactId, version, url, is_sources))
            | _ => .ok none

/-- Lines 115-125: one pip `generatedRepoSpecs` entry to an optional parsed
`(name, version)` pair.  A truthy whitespace-only requirement reaches
`requirement_parts[0]` on an empty list, which raises. -/
def pip_entry (dep_info : JValue) : Except String (Option (List Char × List Char)) :=
  match jget dep_info "attributes" (.obj []) with
  | .error e => .error e
  | .ok attributes =>
    match jget attributes "requirement" .null with
    | .error e => .error e
    | .ok requirement =>
      if ¬ requirement.truthy then .ok none
      else
        match as_str requirement with
        | .error e => .error e
        | .ok req =>
          match pySplitWS (pyStrip isSpace req) with
          | [] => .error "IndexError: list index out of range"
          | name_version :: _ =>
            match pySplitOnce name_version ('=' :: '=' :: []) with
            | none => .ok none
            | some (name, version) => .ok (some (name, version))

/-- Lines 146-156: one direct-download Python entry to an optional
`(name, version, url)` triple (`url` is the raw first element of `urls`). -/
def python_entry (dep_info : JValue) :
    Except String (Option (List Char × List Char × JValue)) :=
  match jget dep_info "attributes" (.obj []) with
  | .error e => .error e
  | .ok attributes =>
    match jget attributes "urls" (.arr []) with
    | .error e => .error e
    | .ok urls =>
      if ¬ urls.truthy then .ok none
      else
        match py_subscript0 urls with
        | .error e => .error e
        | .ok url =>
          match jget attributes "release_filename" .null with
          | .error e => .error e
          | .ok release_filename =>
            if ¬ release_filename.truthy then .ok none
            else
              match as_str release_filename with
              | .error e => .error e
              | .ok rf =>
                match parse_release_filename rf with
                | (some name, some version) =>
                  if name.isEmpty ∨ version.isEmpty then .ok none
                  else .ok (some (name, version, url))
                | _ => .ok none

/-- Lines 91-108: the Maven sub-walk over `generatedRepoSpecs.items()`. -/
def maven_walk : List (String × JValue) → Except String (List Dependency)
  | [] => .ok []
  | (_, dep_info) :: rest =>
    match maven_entry dep_info with
    | .error e => .error e
    | .ok none => maven_walk rest
    | .ok (some (groupId, artifactId, version, url, is_sources)) =>
      match maven_walk rest with
      | .error e => .error e
      | .ok ds => .ok (.maven groupId artifactId version url is_sources :: ds)

/-- Lines 114-139: the pip sub-walk over one partition's repo specs; `seen`
is the shared dedup set of `(name-lowercased, version)` keys. -/
def pip_repo_walk (base_url : List Char) :
    List (String × JValue) → List (List Char × List Char) →
    Except String (List Dependency × List (List Char × List Char))
  | [], seen => .ok ([], seen)
  | (_, dep_info) :: rest, seen =>
    match pip_entry dep_info with
    | .error e => .error e
    | .ok none => pip_repo_walk base_url rest seen
    | .ok (some (name, version)) =>
      let package_key := (name.map Char.toLower, version)
      if package_key ∈ seen then pip_repo_walk base_url rest seen
      else
        match pip_repo_walk base_url rest (package_key :: seen) with
        | .error e => .error e
        | .ok (ds, seen') =>
          .ok (.python name version (pip_url base_url name version) :: ds, seen')

/-- Lines 112-139: the pip walk over every OS/architecture partition. -/
def pip_walk (base_url : List Char) :
    List (String × JValue) → List (List Char × List Char) →
    Except String (List Dependency × List (List Char × List Char))
  | [], seen => .ok ([], seen)
  | (_, os_arch_data) :: rest, seen =>
    match jget os_arch_data "generatedRepoSpecs" (.obj []) with
    | .error e => .error e
    | .ok grs =>
      match jitems grs with
      | .error e => .error e
      | .ok specs =>
        match pip_repo_walk base_url specs seen with
        | .error e => .error e
        | .ok (ds1, seen1) =>
          match pip_walk base_url rest seen1 with
          | .error e => .error e
          | .ok (ds2, seen2) => .ok (ds1 ++ ds2, seen2)

/-- Lines 145-167: the direct-download Python sub-walk, deduplicating
against the same `seen` set as the pip walk. -/
def python_walk : List (String × JValue) → List (List Char × List Char) →
    Except String (List Dependency × List (List Char × List Char))
  | [], seen => .ok ([], seen)
  | (_, dep_info) :: rest, seen =>
    match python_entry dep_info with
    | .error e => .error e
    | .ok none => python_walk rest seen
    | .ok (some (name, version, url)) =>
      let package_key := (name.map Char.toLower, version)
      if package_key ∈ seen then python_walk rest seen
      else
        match python_walk rest (package_key :: seen) with
        | .error e => .error e
        | .ok (ds, seen') => .ok (.python_no_pip name version url :: ds, seen')

/-- Lines 81-169, `bazel_lock_to_packages`.  The pip base URL (read from the
process environment in the source, line 137) is threaded as the explicit
configuration value `base_url`. -/
def bazel_lock_to_packages (base_url : List Char) (bazel_lock : JValue) :
    Except String (List Dependency) :=
  match jget bazel_lock "moduleExtensions" (.obj []) with
  | .error e => .error e
  | .ok module_extensions =>
    match jget module_extensions "@@rules_jvm_external~//:extensions.bzl%maven" (.obj []) with
    | .error e => .error e
    | .ok maven_extension =>
      match jget maven_extension "general" (.obj []) with
      | .error e => .error e
      | .ok general =>
        match jget general "generatedRepoSpecs" (.obj []) with
        | .error e => .error e
        | .ok grs =>
          match jitems grs with
          | .error e => .error e
          | .ok specs =>
            match maven_walk specs with
            | .error e => .error e
            | .ok maven_deps =>
              match jget module_extensions "@@rules_python~//python/extensions:pip.bzl%pip" (.obj []) with
              | .error e => .error e
              | .ok python_pip_extension =>
                match jitems python_pip_extension with
                | .error e => .error e
                | .ok partitions =>
                  match pip_walk base_url partitions [] with
                  | .error e => .error e
                  | .ok (pip_deps, seen1) =>
                    match jget module_extensions "@@rules_python~//python/extensions:python.bzl%python" (.obj []) with
                    | .error e => .error e
                    | .ok python_extension =>
                      match jget python_extension "general" (.obj []) with
                      | .error e => .error e
                      | .ok general2 =>
                        match jget general2 "generatedRepoSpecs" (.obj []) with
                        | .error e => .error e
                        | .ok grs2 =>
                          match jitems grs2 with
                          | .error e => .error e
                          | .ok specs2 =>
                            match python_walk specs2 seen1 with
                            | .error e => .error e
                            | .ok (np_deps, _) =>
                              .ok (maven_deps ++ pip_deps ++ np_deps)

/-! ## SBOM document model (write_sbom.py lines 172-271 and 321-397) -/

structure ExternalRef where
  referenceCategory : List Char
  referenceType : List Char
  referenceLocator : List Char

/-- A package entry.  The two modes emit dicts with different key sets, so
keys that one shape omits are `Option` fields (`none` = key absent). -/
structure Package where
  SPDXID : List Char
  name : List Char
  downloadLocation : JValue
  filesAnalyzed : Option Bool
  versionInfo : Option (List Char)
  externalRefs : Option (List ExternalRef)

structure Relationship where
  spdxElementId : List Char
  relatedSpdxElement : List Char
  relationshipType : List Char

structure CreationInfo where
  licenseListVersion : Option (List Char)
  creators : List (List Char)
  created : List Char

structure Sbom where
  spdxVersion : List Char
  dataLicense : List Char
  SPDXID : List Char
  documentNamespace : List Char
  name : List Char
  creationInfo : CreationInfo
  packages : List Package
  relationships : List Relationship

/-- Lines 201-203: the Maven package identifier, with a `-sources` suffix
when the artifact is a sources jar. -/
def maven_spdxid (groupId artifactId version : List Char) (is_sources : Bool) :
    List Char :=
  "SPDXRef-maven-".data ++ groupId ++ '-' :: artifactId ++ '-' :: version
    ++ (if is_sources then "-sources".data else [])

/-- Lines 221 and 251: the Python package identifier. -/
def python_spdxid (name version : List Char) : List Char :=
  "SPDXRef-Package-".data ++ name ++ '-' :: version

/-- Lines 195-267, the loop body of `create_sbom_from_dependencies`: the
package entry one dependency record contributes (`none` for an unknown
type, which the source skips). -/
def dep_package : Dependency → Option Package
  | .maven groupId artifactId version url is_sources =>
    some { SPDXID := maven_spdxid groupId artifactId version is_sources
           name := groupId ++ ':' :: artifactId
           downloadLocation := .str url
           filesAnalyzed := some false
           versionInfo := some version
           externalRefs := none }
  | .python name version url =>
    some { SPDXID := python_spdxid name version
           name := name
           downloadLocation := .str ("NOASSERTION".data)
           filesAnalyzed := some false
           versionInfo := some version
           externalRefs := some
             [ { referenceCategory := "PACKAGE-MANAGER".data
                 referenceType := "purl".data
                 referenceLocator := "pkg:pypi/".data ++ name ++ '@' :: version },
               { referenceCategory := "OTHER".data
                 referenceType := "URL".data
                 referenceLocator := url } ] }
  | .python_no_pip name version url =>
    some { SPDXID := python_spdxid name version
           name := name
           downloadLocation := url
           filesAnalyzed := some false
           versionInfo := some version
           externalRefs := none }
  | .other => none

/-- Lines 212-216, 242-246, 260-264: the DESCRIBES relationship one
dependency record contributes. -/
def dep_rel : Dependency → Option Relationship
  | .maven groupId artifactId version _ is_sources =>
    some { spdxElementId := "SPDXRef-DOCUMENT".data
           relatedSpdxElement := maven_spdxid groupId artifactId version is_sources
           relationshipType := "DESCRIBES".data }
  | .python name version _ =>
    some { spdxElementId := "SPDXRef-DOCUMENT".data
           relatedSpdxElement := python_spdxid name version
           relationshipType := "DESCRIBES".data }
  | .python_no_pip name version _ =>
    some { spdxElementId := "SPDXRef-DOCUMENT".data
           relatedSpdxElement := python_spdxid name version
           relationshipType := "DESCRIBES".data }
  | .other => none

/-- Lines 172-271, `create_sbom_from_dependencies`.  Each loop iteration
appends exactly one package and one relationship (or, for an unknown type,
neither), so the two output arrays are the per-record contributions in
input order.  The creation timestamp (read from the clock at line 174) is
threaded as the explicit parameter `timestamp`. -/
def create_sbom_from_dependencies (timestamp : List Char)
    (dependencies : List Dependency) : Sbom :=
  { spdxVersion := "SPDX-2.3".data
    dataLicense := "CC0-1.0".data
    SPDXID := "SPDXRef-DOCUMENT".data
    documentNamespace := "http://example.com/spdxdocs/example-document".data
    name := "Generated SBOM".data
    creationInfo := { licenseListVersion := none
                      creators := ["Tool: write_sbom".data]
                      created := timestamp }
    packages := dependencies.filterMap dep_package
    relationships := dependencies.filterMap dep_rel }

/-! ## Manifest mode (write_sbom.py lines 321-397) -/

/-- Metadata carried for one resolved Maven coordinate; the manifest
assembler reads its `url` (line 383). -/
structure MavenLockMeta where
  url : List Char

/-- Modelled from the spec: `maven_install_to_packages` is called at line
313 but its definition is not part of this source tree; only the caller is.
Spec section 4.3: "Input: a Maven-ecosystem lock file mapping each resolved
coordinate to its metadata, including a resolved download URL.  Output: a
mapping from coordinate string to \x7burl, ...\x7d usable for manifest-mode
lookups. ... the resolver's job is solely table-building, not re-deriving
coordinates."  The lock file is therefore modelled as the coordinate-to-
metadata mapping itself and the resolver builds the lookup table from it
entry by entry. -/
def maven_install_to_packages
    (maven_install : List (List Char × MavenLockMeta)) :
    List (List Char × MavenLockMeta) :=
  maven_install.map (fun kv => (kv.1, { url := kv.2.url }))

/-- Modelled from the spec (section 9): the manifest-mode identifier hash.
The source uses `hashlib.md5(...).hexdigest()` from the Python standard
library (an external collaborator); the spec fixes only that the digest is
deterministic and stable, not the digest family, so a simple stable
content hash rendered in hex stands in for it. -/
def spdx_content_hash (s : List Char) : List Char :=
  Nat.toDigits 16 (s.foldl (fun acc c => (acc * 31 + c.toNat) % 4294967296) 5381)

/-- Line 365: `"SPDXRef-GooglePackage-%s" % digest`. -/
def google_spdxid (pkg : List Char) : List Char :=
  "SPDXRef-GooglePackage-".data ++ spdx_content_hash pkg

/-- Data read from the `packages_used` JSON (lines 339 and 362). -/
structure PackageInfo where
  top_level_target : List Char
  packages : List (List Char)

/-- Lines 372-380: resolve one manifest reference against the Maven table.
When `maven_packages` is `None` (no Maven lock file was given), a reference
with the recognized Maven prefix or file-target suffix reaches
`None.get(...)`, which raises `AttributeError`; any other reference leaves
`have_maven = None` without touching the table. -/
def manifest_lookup (maven_packages : Option (List (List Char × MavenLockMeta)))
    (pkg : List Char) : Except String (Option MavenLockMeta) :=
  if ("@maven//:".data).isPrefixOf pkg then
    match maven_packages with
    | none => .error "AttributeError: NoneType object has no attribute get"
    | some table => .ok (table.lookup (pkg.drop 9))
  else if ("//file:file".data).isSuffixOf pkg then
    match maven_packages with
    | none => .error "AttributeError: NoneType object has no attribute get"
    | some table => .ok (table.lookup ((pkg.take (pkg.length - 11)).drop 1))
  else .ok none

/-- Lines 362-393, the loop body of `create_sbom`: packages, CONTAINS
relationships and `MISSING` diagnostics accumulated over the manifest
package references, aborting with the raised exception when the lookup
raises. -/
def manifest_walk (maven_packages : Option (List (List Char × MavenLockMeta))) :
    List (List Char) →
    Except String (List Package × List Relationship × List (List Char))
  | [] => .ok ([], [], [])
  | pkg :: rest =>
    let spdxid := google_spdxid pkg
    match manifest_lookup maven_packages pkg with
    | .error e => .error e
    | .ok have_maven =>
      let pi : Package :=
        { SPDXID := spdxid
          name := pkg
          downloadLocation := .str (match have_maven with
            | some m => m.url
            | none => "NOASSERTION".data)
          filesAnalyzed := none
          versionInfo := none
          externalRefs := none }
      let diag : List (List Char) :=
        match have_maven with
        | some _ => []
        | none => ["MISSING  ".data ++ pkg]
      match manifest_walk maven_packages rest with
      | .error e => .error e
      | .ok (ps, rs, ds) =>
        .ok (pi :: ps,
          { spdxElementId := "SPDXRef-Package-main".data
            relatedSpdxElement := spdxid
            relationshipType := "CONTAINS".data } :: rs,
          diag ++ ds)

/-- Lines 321-397, `create_sbom` (manifest mode).  Returns the document
together with the list of `MISSING` diagnostic lines printed to the
diagnostic stream; a raised exception is an `Except.error`.  The creation
timestamp (line 331) is threaded as `timestamp`. -/
def create_sbom (package_info : PackageInfo)
    (maven_packages : Option (List (List Char × MavenLockMeta)))
    (timestamp : List Char) :
    Except String (Sbom × List (List Char)) :=
  match manifest_walk maven_packages package_info.packages with
  | .error e => .error e
  | .ok (ps, rs, ds) =>
    .ok ({ spdxVersion := "SPDX-2.3".data
           dataLicense := "CC0-1.0".data
           SPDXID := "SPDXRef-DOCUMENT".data
           documentNamespace :=
             "https://spdx.google/be852459-4c54-4c50-9d2f-0e48890418fc".data
           name := package_info.top_level_target
           creationInfo := { licenseListVersion := some []
                             creators :=
                               ["Tool: github.com/bazelbuild/bazel/tools/compliance/write_sbom".data,
                                "Organization: Google LLC".data]
                             created := timestamp }
           packages := ps
           relationships :=
             { spdxElementId := "SPDXRef-DOCUMENT".data
               relatedSpdxElement := "SPDXRef-Package-main".data
               relationshipType := "DESCRIBES".data } :: rs }, ds)

/-! ## Entry point (write_sbom.py lines 274-318) -/

/-- The two input modes of `main`: mode A is a supplied Bazel lock file,
mode B the package manifest plus optional Maven lock file. -/
inductive MainInput where
  | modeA (bazel_lock : JValue)
  | modeB (package_info : PackageInfo)
      (maven_install : Option (List (List Char × MavenLockMeta)))

/-- Lines 300-318: mode selection and output.  The result is the list of
documents written (`main` writes exactly one file per invocation); a
Python exception is an `Except.error` and nothing is written. -/
def main_run (base_url timestamp : List Char) :
    MainInput → Except String (List Sbom)
  | .modeA bazel_lock =>
    match bazel_lock_to_packages base_url bazel_lock with
    | .error e => .error e
    | .ok dependencies => .ok [create_sbom_from_dependencies timestamp dependencies]
  | .modeB package_info maven_install =>
    let maven_packages := maven_install.map maven_install_to_packages
    match create_sbom package_info maven_packages timestamp with
    | .error e => .error e
    | .ok (sbom, _) => .ok [sbom]

/-! ## Helper lemmas: splitting and joining -/

theorem pySplit1_no_sep {sep : Char} : ∀ {s : List Char}, sep ∉ s →
    pySplit1 sep s = [s]
  | [], _ => rfl
  | c :: t, h => by
    have hc : c ≠ sep := fun hc => h (hc ▸ List.mem_cons_self c t)
    have ht : sep ∉ t := fun hm => h (List.mem_cons_of_mem _ hm)
    simp only [pySplit1, if_neg hc, pySplit1_no_sep ht]

theorem pySplit1_append {sep : Char} : ∀ {v : List Char} (rest : List Char),
    sep ∉ v → pySplit1 sep (v ++ sep :: rest) = [v, rest]
  | [], rest, _ => by simp [pySplit1]
  | c :: t, rest, h => by
    have hc : c ≠ sep := fun hc => h (hc ▸ List.mem_cons_self c t)
    have ht : sep ∉ t := fun hm => h (List.mem_cons_of_mem _ hm)
    have hrec := pySplit1_append (v := t) rest ht
    simp only [List.cons_append, pySplit1, if_neg hc, List.append_eq, hrec]

theorem pySplitAll_no_sep {sep : Char} : ∀ {s : List Char}, sep ∉ s →
    pySplitAll sep s = [s]
  | [], _ => rfl
  | c :: t, h => by
    have hc : c ≠ sep := fun hc => h (hc ▸ List.mem_cons_self c t)
    have ht : sep ∉ t := fun hm => h (List.mem_cons_of_mem _ hm)
    simp only [pySplitAll, if_neg hc, pySplitAll_no_sep ht]

theorem pySplitAll_append {sep : Char} : ∀ {v : List Char} (rest : List Char),
    sep ∉ v → pySplitAll sep (v ++ sep :: rest) = v :: pySplitAll sep rest
  | [], rest, _ => by simp [pySplitAll]
  | c :: t, rest, h => by
    have hc : c ≠ sep := fun hc => h (hc ▸ List.mem_cons_self c t)
    have ht : sep ∉ t := fun hm => h (List.mem_cons_of_mem _ hm)
    have hrec := pySplitAll_append (v := t) rest ht
    simp only [List.cons_append, pySplitAll, if_neg hc, List.append_eq, hrec]

theorem joinSep_split {sep : Char} : ∀ {segs : List (List Char)},
    segs ≠ [] → (∀ s ∈ segs, sep ∉ s) →
    pySplitAll sep (joinSep sep segs) = segs
  | [], h, _ => absurd rfl h
  | [x], _, hs => by
    simp only [joinSep]
    exact pySplitAll_no_sep (hs x (List.mem_singleton_self x))
  | x :: y :: rest, _, hs => by
    have hx : sep ∉ x := hs x (List.mem_cons_self _ _)
    have hrec := joinSep_split (List.cons_ne_nil y rest)
      (fun s hm => hs s (List.mem_cons_of_mem _ hm))
    simp only [joinSep, pySplitAll_append _ hx, hrec]

theorem joinSep_head {sep : Char} : ∀ (x : List Char) (rest : List (List Char)),
    ∃ t, joinSep sep (x :: rest) = x ++ t
  | x, [] => ⟨[], by simp [joinSep]⟩
  | x, y :: rest => ⟨sep :: joinSep sep (y :: rest), rfl⟩

theorem joinSep_last {sep : Char} : ∀ (segs : List (List Char)) (f : List Char),
    ∃ t, joinSep sep (segs ++ [f]) = t ++ f
  | [], f => ⟨[], by simp [joinSep]⟩
  | x :: segs, f => by
    obtain ⟨t, ht⟩ := @joinSep_last sep segs f
    cases segs with
    | nil => exact ⟨x ++ [sep], by simp [joinSep]⟩
    | cons y rest =>
      refine ⟨x ++ sep :: t, ?_⟩
      simp only [List.cons_append] at ht ⊢
      simp only [joinSep, ht]
      simp

/-! ## Helper lemmas: stripping -/

theorem rstripP_concat {p : Char → Bool} {l : List Char} {d : Char}
    (hd : ¬ p d) : rstripP p (l ++ [d]) = l ++ [d] := by
  simp only [rstripP, List.reverse_append, List.reverse_cons, List.reverse_nil,
    List.nil_append, List.cons_append, List.dropWhile_cons_of_neg hd]
  simp

theorem pyStrip_eq_self {p : Char → Bool} {c d : Char} {m l : List Char}
    (hhead : l = c :: m) (hc : ¬ p c) (hlast : ∃ t, l = t ++ [d]) (hd : ¬ p d) :
    pyStrip p l = l := by
  obtain ⟨t, ht⟩ := hlast
  subst hhead
  rw [pyStrip, List.dropWhile_cons_of_neg hc, ht, rstripP_concat hd]

/-! ## Helper lemmas: pyFind -/

theorem pyFindAux_eq_none {pat : List Char} : ∀ {s : List Char} (acc : Nat),
    (∀ i, ¬ pat.isPrefixOf (s.drop i) = true) → pyFindAux pat s acc = none
  | [], acc, h => by
    have h0 : ¬ pat.isPrefixOf ([] : List Char) = true := by simpa using h 0
    simp only [pyFindAux, if_neg h0]
  | c :: t, acc, h => by
    have h0 : ¬ pat.isPrefixOf (c :: t) = true := h 0
    simp only [pyFindAux, if_neg h0]
    exact pyFindAux_eq_none (acc + 1) (fun i => h (i + 1))

theorem pyFindAux_eq_some {pat : List Char} : ∀ {s : List Char} (k acc : Nat),
    pat.isPrefixOf (s.drop k) = true →
    (∀ i, i < k → ¬ pat.isPrefixOf (s.drop i) = true) →
    pyFindAux pat s acc = some (acc + k)
  | s, 0, acc, hk, _ => by
    simp only [List.drop_zero] at hk
    cases s with
    | nil => simp only [pyFindAux, if_pos hk, Nat.add_zero]
    | cons c t => simp only [pyFindAux, if_pos hk, Nat.add_zero]
  | [], k + 1, acc, hk, hlt => by
    exact absurd (by simpa using hk) (by simpa using hlt 0 (Nat.succ_pos k))
  | c :: t, k + 1, acc, hk, hlt => by
    have h0 : ¬ pat.isPrefixOf (c :: t) = true := by
      simpa using hlt 0 (Nat.succ_pos k)
    simp only [pyFindAux, if_neg h0]
    have := pyFindAux_eq_some (s := t) k (acc + 1)
      (by simpa using hk) (fun i hi => by simpa using hlt (i + 1) (by omega))
    rw [this]
    congr 1
    omega

theorem pyFind_eq_neg_one {s pat : List Char} (hpat : pat ≠ [])
    (h : ∀ i, i < s.length → ¬ pat <+: s.drop i) : pyFind s pat = -1 := by
  have hall : ∀ i, ¬ pat.isPrefixOf (s.drop i) = true := by
    intro i
    by_cases hi : i < s.length
    · simpa using h i hi
    · have : s.drop i = [] := List.drop_eq_nil_of_le (by omega)
      rw [this]
      cases pat with
      | nil => exact absurd rfl hpat
      | cons c t => simp [List.isPrefixOf]
  rw [pyFind, pyFindAux_eq_none 0 hall]

theorem pyFind_eq_of_first {s pat : List Char} {k : Nat}
    (hk : pat <+: s.drop k) (hlt : ∀ i, i < k → ¬ pat <+: s.drop i) :
    pyFind s pat = (k : Int) := by
  have := pyFindAux_eq_some (s := s) k 0 (by simpa using hk)
    (fun i hi => by simpa using hlt i hi)
  rw [pyFind, this, Nat.zero_add]

/-! ## Python record keys of dependency records -/

/-- The dedup key `(name.lower(), version)` of a Python-variant record. -/
def pythonKey : Dependency → Option (List Char × List Char)
  | .python n v _ => some (n.map Char.toLower, v)
  | .python_no_pip n v _ => some (n.map Char.toLower, v)
  | _ => none

/-! ## Claim C8 -/

/-- C8: for every release filename of the form `<version>/<name>.tar.gz`
(the version segment containing no slash), `parse_release_filename` returns
exactly the pair (name with underscores rewritten to hyphens, version); for
every input containing no slash it returns the absence marker. -/
theorem c8_theorem :
    (∀ version name : List Char, ('/' : Char) ∉ version →
      parse_release_filename (version ++ '/' :: (name ++ ".tar.gz".data)) =
        (some (hyphenate name), some version))
  ∧ (∀ s : List Char, ('/' : Char) ∉ s → parse_release_filename s = (none, none)) := by
  constructor
  · intro version name hv
    have hlen : (".tar.gz".data).length = 7 := by decide
    have hsuf : (".tar.gz".data).isSuffixOf (name ++ ".tar.gz".data) = true := by
      simp
    have htake : (name ++ ".tar.gz".data).take ((name ++ ".tar.gz".data).length - 7)
        = name := by
      rw [List.length_append, hlen, Nat.add_sub_cancel]
      exact List.take_left name (".tar.gz".data)
    simp only [parse_release_filename, pySplit1_append _ hv, hsuf, if_true, htake]
  · intro s hs
    simp only [parse_release_filename, pySplit1_no_sep hs]

theorem c8_witness :
    parse_release_filename (("2.31.0".data) ++ '/' ::
        ("typing_extensions".data ++ ".tar.gz".data)) =
      (some (hyphenate ("typing_extensions".data)), some ("2.31.0".data))
  ∧ parse_release_filename ("noslash".data) = (none, none) :=
  ⟨c8_theorem.1 ("2.31.0".data) ("typing_extensions".data) (by decide),
   c8_theorem.2 ("noslash".data) (by decide)⟩

/-! ## Claim C9 -/

/-- C9: two runs of the assemble-from-dependencies operation on the same
dependency list produce identical packages arrays and identical
relationships arrays; only the creation timestamp can differ, and it is an
explicit parameter the arrays do not depend on. -/
theorem c9_theorem : ∀ (ts1 ts2 : List Char) (deps : List Dependency),
    (create_sbom_from_dependencies ts1 deps).packages =
      (create_sbom_from_dependencies ts2 deps).packages ∧
    (create_sbom_from_dependencies ts1 deps).relationships =
      (create_sbom_from_dependencies ts2 deps).relationships :=
  fun _ _ _ => ⟨rfl, rfl⟩

/-! ## Claim C4 -/

/-- C4, counterexample: a pip-resolved `python` record carries its
synthesized URL, yet the emitted package's download location is the
sentinel `NOASSERTION`, not that URL — refuting the claim that the
download location is the record's URL whenever one is present. -/
theorem c4_counterexample :
    ((create_sbom_from_dependencies [] [.python ("requests".data) ("2.31.0".data)
        ("https://base/requests/2.31.0/requests-2.31.0.tar.gz".data)]).packages.map
      (fun p => p.downloadLocation)) = [.str ("NOASSERTION".data)]
  ∧ "NOASSERTION".data ≠ "https://base/requests/2.31.0/requests-2.31.0.tar.gz".data :=
  ⟨rfl, by decide⟩

/-- C4, amended: the packages array is the per-record translation
`dep_package` in input order; a `maven` or `python_no_pip` record yields a
package whose download location is the record's URL, while a pip-resolved
`python` record yields download location `NOASSERTION` with the synthesized
URL recorded in an external reference entry instead. -/
theorem c4_theorem : ∀ (ts : List Char) (deps : List Dependency),
    (create_sbom_from_dependencies ts deps).packages = deps.filterMap dep_package
  ∧ (∀ (g a v u : List Char) (s : Bool),
      (dep_package (.maven g a v u s)).map (fun p => p.downloadLocation) =
        some (.str u))
  ∧ (∀ n v u : List Char,
      (dep_package (.python n v u)).map (fun p => p.downloadLocation) =
        some (.str ("NOASSERTION".data))
    ∧ (dep_package (.python n v u)).map (fun p => p.externalRefs) =
        some (some
          [⟨"PACKAGE-MANAGER".data, "purl".data, "pkg:pypi/".data ++ n ++ '@' :: v⟩,
           ⟨"OTHER".data, "URL".data, u⟩]))
  ∧ (∀ (n v : List Char) (u : JValue),
      (dep_package (.python_no_pip n v u)).map (fun p => p.downloadLocation) =
        some u) :=
  fun _ _ => ⟨rfl, fun _ _ _ _ _ => rfl, fun _ _ _ => ⟨rfl, rfl⟩, fun _ _ _ => rfl⟩

/-! ## Claim C3 -/

/-- C3: the normalizer is not total over per-entry malformations.  A pip
entry whose `requirement` is the truthy whitespace-only string `" "` (so
`strip().split()` is empty) drives `requirement_parts[0]` into an
IndexError that aborts the whole run instead of being skipped. -/
theorem c3_theorem :
    bazel_lock_to_packages ("https://base".data)
      (.obj [("moduleExtensions", .obj [
        ("@@rules_python~//python/extensions:pip.bzl%pip", .obj [
          ("linux_x86_64", .obj [("generatedRepoSpecs", .obj [
            ("pip_dep", .obj [("attributes", .obj
              [("requirement", .str (" ".data))])])])])])])]) =
      .error "IndexError: list index out of range" := rfl

/-! ## Claim C7: the dedup invariant -/

/-- Invariant carried by the two Python sub-walks: the seen set only grows,
the emitted keys are pairwise distinct, and every emitted key was fresh on
entry and is recorded on exit. -/
def SeenInv (seen : List (List Char × List Char)) (ds : List Dependency)
    (seen' : List (List Char × List Char)) : Prop :=
  (∀ k, k ∈ seen → k ∈ seen') ∧ (ds.filterMap pythonKey).Nodup ∧
  (∀ k ∈ ds.filterMap pythonKey, k ∉ seen ∧ k ∈ seen')

theorem SeenInv_nil {seen : List (List Char × List Char)} : SeenInv seen [] seen :=
  ⟨fun _ hk => hk, List.nodup_nil, fun k hk => absurd hk (List.not_mem_nil k)⟩

theorem SeenInv_cons {seen seen' : List (List Char × List Char)}
    {ds : List Dependency} {d : Dependency} {key : List Char × List Char}
    (hd : pythonKey d = some key) (hfresh : key ∉ seen)
    (h : SeenInv (key :: seen) ds seen') : SeenInv seen (d :: ds) seen' := by
  obtain ⟨hmono, hnd, hmem⟩ := h
  have hkeys : (d :: ds).filterMap pythonKey = key :: ds.filterMap pythonKey := by
    simp [List.filterMap_cons, hd]
  refine ⟨fun k hk => hmono k (List.mem_cons_of_mem _ hk), ?_, ?_⟩
  · rw [hkeys]
    refine List.Nodup.cons (fun hmem' => ?_) hnd
    exact (hmem key hmem').1 (List.mem_cons_self _ _)
  · rw [hkeys]
    intro k hk
    rcases List.mem_cons.1 hk with rfl | hk'
    · exact ⟨hfresh, hmono k (List.mem_cons_self _ _)⟩
    · obtain ⟨hnot, hin⟩ := hmem k hk'
      exact ⟨fun hks => hnot (List.mem_cons_of_mem _ hks), hin⟩

theorem SeenInv_append {seen seen1 seen2 : List (List Char × List Char)}
    {ds1 ds2 : List Dependency}
    (h1 : SeenInv seen ds1 seen1) (h2 : SeenInv seen1 ds2 seen2) :
    SeenInv seen (ds1 ++ ds2) seen2 := by
  obtain ⟨m1, nd1, mem1⟩ := h1
  obtain ⟨m2, nd2, mem2⟩ := h2
  have hkeys : (ds1 ++ ds2).filterMap pythonKey =
      ds1.filterMap pythonKey ++ ds2.filterMap pythonKey :=
    List.filterMap_append ds1 ds2 pythonKey
  refine ⟨fun k hk => m2 k (m1 k hk), ?_, ?_⟩
  · rw [hkeys, List.nodup_append]
    refine ⟨nd1, nd2, fun k hk1 hk2 => ?_⟩
    exact (mem2 k hk2).1 ((mem1 k hk1).2)
  · rw [hkeys]
    intro k hk
    rcases List.mem_append.1 hk with hk1 | hk2
    · exact ⟨(mem1 k hk1).1, m2 k (mem1 k hk1).2⟩
    · exact ⟨fun hks => (mem2 k hk2).1 (m1 k hks), (mem2 k hk2).2⟩

theorem maven_walk_keys : ∀ {specs : List (String × JValue)}
    {ds : List Dependency}, maven_walk specs = .ok ds →
    ds.filterMap pythonKey = []
  | [], ds, h => by
    injection h with h
    subst h
    rfl
  | (n, di) :: rest, ds, h => by
    simp only [maven_walk] at h
    split at h
    · exact Except.noConfusion h
    · exact maven_walk_keys h
    · split at h
      · exact Except.noConfusion h
      · injection h with h
        subst h
        rename_i heq
        simpa [pythonKey] using maven_walk_keys heq

theorem pip_repo_walk_inv {base : List Char} : ∀ {specs : List (String × JValue)}
    {seen : List (List Char × List Char)} {ds : List Dependency}
    {seen' : List (List Char × List Char)},
    pip_repo_walk base specs seen = .ok (ds, seen') → SeenInv seen ds seen'
  | [], seen, ds, seen', h => by
    injection h with h
    injection h with h1 h2
    subst h1; subst h2
    exact SeenInv_nil
  | (n, di) :: rest, seen, ds, seen', h => by
    simp only [pip_repo_walk] at h
    split at h
    · exact Except.noConfusion h
    · exact pip_repo_walk_inv h
    · rename_i name version
      split at h
      · exact pip_repo_walk_inv h
      · rename_i hfresh
        split at h
        · exact Except.noConfusion h
        · injection h with h
          injection h with h1 h2
          subst h1; subst h2
          rename_i heq
          exact SeenInv_cons rfl hfresh (pip_repo_walk_inv heq)

theorem python_walk_inv : ∀ {specs : List (String × JValue)}
    {seen : List (List Char × List Char)} {ds : List Dependency}
    {seen' : List (List Char × List Char)},
    python_walk specs seen = .ok (ds, seen') → SeenInv seen ds seen'
  | [], seen, ds, seen', h => by
    injection h with h
    injection h with h1 h2
    subst h1; subst h2
    exact SeenInv_nil
  | (n, di) :: rest, seen, ds, seen', h => by
    simp only [python_walk] at h
    split at h
    · exact Except.noConfusion h
    · exact python_walk_inv h
    · rename_i name version url
      split at h
      · exact python_walk_inv h
      · rename_i hfresh
        split at h
        · exact Except.noConfusion h
        · injection h with h
          injection h with h1 h2
          subst h1; subst h2
          rename_i heq
          exact SeenInv_cons rfl hfresh (python_walk_inv heq)

theorem pip_walk_inv {base : List Char} : ∀ {partitions : List (String × JValue)}
    {seen : List (List Char × List Char)} {ds : List Dependency}
    {seen' : List (List Char × List Char)},
    pip_walk base partitions seen = .ok (ds, seen') → SeenInv seen ds seen'
  | [], seen, ds, seen', h => by
    injection h with h
    injection h with h1 h2
    subst h1; subst h2
    exact SeenInv_nil
  | (n, oad) :: rest, seen, ds, seen', h => by
    simp only [pip_walk] at h
    split at h
    · exact Except.noConfusion h
    · split at h
      · exact Except.noConfusion h
      · split at h
        · exact Except.noConfusion h
        · split at h
          · exact Except.noConfusion h
          · injection h with h
            injection h with h1 h2
            subst h1; subst h2
            exact SeenInv_append (pip_repo_walk_inv (by assumption))
              (pip_walk_inv (by assumption))

theorem bazel_lock_keys_nodup {base : List Char} {lock : JValue}
    {deps : List Dependency}
    (h : bazel_lock_to_packages base lock = .ok deps) :
    (deps.filterMap pythonKey).Nodup := by
  unfold bazel_lock_to_packages at h
  repeat' split at h
  all_goals try exact Except.noConfusion h
  injection h with h
  subst h
  have hm := maven_walk_keys (by assumption)
  have hp : SeenInv [] _ _ := pip_walk_inv (by assumption)
  have hn : SeenInv _ _ _ := python_walk_inv (by assumption)
  have hall := SeenInv_append hp hn
  rw [List.append_assoc, List.filterMap_append, hm, List.nil_append]
  exact hall.2.1

/-- A lock file holding one pip entry `Foo==1.0` and one direct-download
entry with release filename `1.0/foo.tar.gz`, whose keys collide after
lowercasing. -/
def c7_demo_lock : JValue := .obj [("moduleExtensions", .obj [
  ("@@rules_python~//python/extensions:pip.bzl%pip", .obj [
    ("linux_x86_64", .obj [("generatedRepoSpecs", .obj [
      ("pip_foo", .obj [("attributes", .obj
        [("requirement", .str ("Foo==1.0".data))])])])])]),
  ("@@rules_python~//python/extensions:python.bzl%python", .obj [
    ("general", .obj [("generatedRepoSpecs", .obj [
      ("foo_direct", .obj [("attributes", .obj [
        ("urls", .arr [.str ("https://example.com/foo-1.0.tar.gz".data)]),
        ("release_filename", .str ("1.0/foo.tar.gz".data))])])])])])])]

/-- C7: within one normalizer run the emitted `python` / `python_no_pip`
records carry pairwise distinct `(name.lower(), version)` keys; and on a
lock file where a pip entry and a direct-download entry collide on that
key, exactly the first (the pip record) is emitted and the later duplicate
is silently dropped. -/
theorem c7_theorem :
    (∀ (base : List Char) (lock : JValue) (deps : List Dependency),
        bazel_lock_to_packages base lock = .ok deps →
        (deps.filterMap pythonKey).Nodup)
  ∧ bazel_lock_to_packages ("https://base".data) c7_demo_lock =
      .ok [.python ("Foo".data) ("1.0".data)
            (pip_url ("https://base".data) ("Foo".data) ("1.0".data))] :=
  ⟨fun _ _ _ h => bazel_lock_keys_nodup h, rfl⟩

theorem c7_witness :
    (([Dependency.python ("Foo".data) ("1.0".data)
        (pip_url ("https://base".data) ("Foo".data) ("1.0".data))]).filterMap
      pythonKey).Nodup :=
  c7_theorem.1 ("https://base".data) c7_demo_lock _ c7_theorem.2

/-! ## Manifest-walk lemmas -/

theorem manifest_walk_rels {mp : Option (List (List Char × MavenLockMeta))} :
    ∀ {pkgs : List (List Char)} {ps : List Package} {rs : List Relationship}
      {ds : List (List Char)},
    manifest_walk mp pkgs = .ok (ps, rs, ds) →
    ∀ rel ∈ rs, rel.spdxElementId = "SPDXRef-Package-main".data ∧
      rel.relatedSpdxElement ∈ ps.map Package.SPDXID
  | [], ps, rs, ds, h => by
    injection h with h
    injection h with h1 h2
    injection h2 with h2 h3
    subst h1; subst h2
    exact fun rel hrel => absurd hrel (List.not_mem_nil rel)
  | pkg :: rest, ps, rs, ds, h => by
    simp only [manifest_walk] at h
    cases hlk : manifest_lookup mp pkg with
    | error e =>
      rw [hlk] at h
      exact Except.noConfusion h
    | ok have_maven =>
      rw [hlk] at h
      cases hrec : manifest_walk mp rest with
      | error e =>
        rw [hrec] at h
        exact Except.noConfusion h
      | ok out =>
        obtain ⟨ps0, rs0, ds0⟩ := out
        rw [hrec] at h
        injection h with h
        injection h with h1 h2
        injection h2 with h2 h3
        subst h1; subst h2
        intro rel hrel
        rcases List.mem_cons.1 hrel with rfl | hrel'
        · exact ⟨rfl, List.mem_map.2 ⟨_, List.mem_cons_self _ _, rfl⟩⟩
        · obtain ⟨hsrc, htgt⟩ := manifest_walk_rels hrec rel hrel'
          refine ⟨hsrc, List.mem_map.2 ?_⟩
          obtain ⟨p, hp, hps⟩ := List.mem_map.1 htgt
          exact ⟨p, List.mem_cons_of_mem _ hp, hps⟩

theorem manifest_lookup_some {t : List (List Char × MavenLockMeta)}
    (pkg : List Char) : ∃ o, manifest_lookup (some t) pkg = .ok o := by
  unfold manifest_lookup
  split
  · exact ⟨_, rfl⟩
  · split
    · exact ⟨_, rfl⟩
    · exact ⟨_, rfl⟩

theorem manifest_walk_some_ok {t : List (List Char × MavenLockMeta)} :
    ∀ (pkgs : List (List Char)),
    ∃ out, manifest_walk (some t) pkgs = .ok out
  | [] => ⟨([], [], []), rfl⟩
  | pkg :: rest => by
    obtain ⟨⟨ps, rs, ds⟩, hout⟩ := manifest_walk_some_ok (t := t) rest
    obtain ⟨o, ho⟩ := manifest_lookup_some (t := t) pkg
    exact ⟨_, by simp only [manifest_walk, hout, ho]; rfl⟩

/-! ## Claim C1 -/

/-- The document manifest mode produces for the empty manifest
`top_level_target = "top"`, timestamp `[]`. -/
def c1_demo_doc : Sbom :=
  { spdxVersion := "SPDX-2.3".data
    dataLicense := "CC0-1.0".data
    SPDXID := "SPDXRef-DOCUMENT".data
    documentNamespace :=
      "https://spdx.google/be852459-4c54-4c50-9d2f-0e48890418fc".data
    name := "top".data
    creationInfo := { licenseListVersion := some []
                      creators :=
                        ["Tool: github.com/bazelbuild/bazel/tools/compliance/write_sbom".data,
                         "Organization: Google LLC".data]
                      created := [] }
    packages := []
    relationships := [{ spdxElementId := "SPDXRef-DOCUMENT".data
                        relatedSpdxElement := "SPDXRef-Package-main".data
                        relationshipType := "DESCRIBES".data }] }

/-- C1, counterexample: in manifest mode the single DESCRIBES relationship
references `SPDXRef-Package-main` as its target, but the packages array of
the generated document (here: empty) never contains an entry with that
SPDXID — the root "main package" node is referenced yet never emitted. -/
theorem c1_counterexample :
    create_sbom ⟨"top".data, []⟩ none [] = .ok (c1_demo_doc, [])
  ∧ ({ spdxElementId := "SPDXRef-DOCUMENT".data
       relatedSpdxElement := "SPDXRef-Package-main".data
       relationshipType := "DESCRIBES".data } : Relationship) ∈
      c1_demo_doc.relationships
  ∧ "SPDXRef-Package-main".data ∉ c1_demo_doc.packages.map Package.SPDXID :=
  ⟨rfl, List.mem_singleton.mpr rfl, by simp [c1_demo_doc]⟩

/-- C1, amended: in assemble-from-dependencies mode every relationship has
the document as source and a target that is the SPDXID of some packages
entry; in manifest mode every relationship's source is the document or the
root node `SPDXRef-Package-main`, and every target is either that root node
(which is referenced but never emitted as a package) or the SPDXID of some
packages entry. -/
theorem c1_theorem :
    (∀ (ts : List Char) (deps : List Dependency),
      ∀ rel ∈ (create_sbom_from_dependencies ts deps).relationships,
        rel.spdxElementId = "SPDXRef-DOCUMENT".data ∧
        rel.relatedSpdxElement ∈
          (create_sbom_from_dependencies ts deps).packages.map Package.SPDXID)
  ∧ (∀ (pinfo : PackageInfo) (mp : Option (List (List Char × MavenLockMeta)))
        (ts : List Char) (doc : Sbom) (diags : List (List Char)),
      create_sbom pinfo mp ts = .ok (doc, diags) →
      ∀ rel ∈ doc.relationships,
        (rel.spdxElementId = "SPDXRef-DOCUMENT".data ∨
         rel.spdxElementId = "SPDXRef-Package-main".data) ∧
        (rel.relatedSpdxElement = "SPDXRef-Package-main".data ∨
         rel.relatedSpdxElement ∈ doc.packages.map Package.SPDXID)) := by
  constructor
  · intro ts deps rel hrel
    simp only [create_sbom_from_dependencies] at hrel ⊢
    obtain ⟨d, hd, hrd⟩ := List.mem_filterMap.1 hrel
    cases d with
    | maven g a v u s =>
      injection hrd with hrd
      subst hrd
      exact ⟨rfl, List.mem_map.2 ⟨_, List.mem_filterMap.2 ⟨_, hd, rfl⟩, rfl⟩⟩
    | python n v u =>
      injection hrd with hrd
      subst hrd
      exact ⟨rfl, List.mem_map.2 ⟨_, List.mem_filterMap.2 ⟨_, hd, rfl⟩, rfl⟩⟩
    | python_no_pip n v u =>
      injection hrd with hrd
      subst hrd
      exact ⟨rfl, List.mem_map.2 ⟨_, List.mem_filterMap.2 ⟨_, hd, rfl⟩, rfl⟩⟩
    | other => exact Option.noConfusion hrd
  · intro pinfo mp ts doc diags h rel hrel
    unfold create_sbom at h
    cases hmw : manifest_walk mp pinfo.packages with
    | error e =>
      rw [hmw] at h
      exact Except.noConfusion h
    | ok out =>
      obtain ⟨ps, rs, ds⟩ := out
      rw [hmw] at h
      injection h with h
      injection h with h1 h2
      subst h1
      simp only [] at hrel
      rcases List.mem_cons.1 hrel with rfl | hrel'
      · exact ⟨Or.inl rfl, Or.inl rfl⟩
      · obtain ⟨hsrc, htgt⟩ := manifest_walk_rels hmw rel hrel'
        exact ⟨Or.inr hsrc, Or.inr htgt⟩

theorem c1_witness :
    (({ spdxElementId := "SPDXRef-DOCUMENT".data
        relatedSpdxElement := python_spdxid ("p".data) ("1".data)
        relationshipType := "DESCRIBES".data } : Relationship).spdxElementId =
        "SPDXRef-DOCUMENT".data ∧
      ({ spdxElementId := "SPDXRef-DOCUMENT".data
         relatedSpdxElement := python_spdxid ("p".data) ("1".data)
         relationshipType := "DESCRIBES".data } : Relationship).relatedSpdxElement ∈
        (create_sbom_from_dependencies []
          [.python ("p".data) ("1".data) ("u".data)]).packages.map Package.SPDXID)
  ∧ ((({ spdxElementId := "SPDXRef-DOCUMENT".data
         relatedSpdxElement := "SPDXRef-Package-main".data
         relationshipType := "DESCRIBES".data } : Relationship).spdxElementId =
          "SPDXRef-DOCUMENT".data ∨
        ({ spdxElementId := "SPDXRef-DOCUMENT".data
           relatedSpdxElement := "SPDXRef-Package-main".data
           relationshipType := "DESCRIBES".data } : Relationship).spdxElementId =
          "SPDXRef-Package-main".data) ∧
      (({ spdxElementId := "SPDXRef-DOCUMENT".data
          relatedSpdxElement := "SPDXRef-Package-main".data
          relationshipType := "DESCRIBES".data } : Relationship).relatedSpdxElement =
          "SPDXRef-Package-main".data ∨
        ({ spdxElementId := "SPDXRef-DOCUMENT".data
           relatedSpdxElement := "SPDXRef-Package-main".data
           relationshipType := "DESCRIBES".data } : Relationship).relatedSpdxElement ∈
          c1_demo_doc.packages.map Package.SPDXID)) :=
  ⟨c1_theorem.1 [] [.python ("p".data) ("1".data) ("u".data)] _
      (List.mem_singleton.mpr rfl),
   c1_theorem.2 ⟨"top".data, []⟩ none [] c1_demo_doc [] rfl _
      (List.mem_singleton.mpr rfl)⟩

/-! ## Claim C10 -/

/-- The package entry emitted for an unresolvable manifest reference. -/
def noassert_package (pkg : List Char) : Package :=
  { SPDXID := google_spdxid pkg
    name := pkg
    downloadLocation := .str ("NOASSERTION".data)
    filesAnalyzed := none
    versionInfo := none
    externalRefs := none }

/-- The CONTAINS relationship emitted for one manifest reference. -/
def google_contains_rel (pkg : List Char) : Relationship :=
  { spdxElementId := "SPDXRef-Package-main".data
    relatedSpdxElement := google_spdxid pkg
    relationshipType := "CONTAINS".data }

/-- The diagnostic line `print("MISSING ", pkg, file=sys.stderr)` writes. -/
def missing_line (pkg : List Char) : List Char := "MISSING  ".data ++ pkg

theorem manifest_lookup_none_ok {pkg : List Char}
    (h1 : ("@maven//:".data).isPrefixOf pkg = false)
    (h2 : ("//file:file".data).isSuffixOf pkg = false) :
    manifest_lookup none pkg = .ok none := by
  simp [manifest_lookup, h1, h2]

theorem manifest_walk_none_eq : ∀ {pkgs : List (List Char)},
    (∀ pkg ∈ pkgs, ("@maven//:".data).isPrefixOf pkg = false ∧
      ("//file:file".data).isSuffixOf pkg = false) →
    manifest_walk none pkgs =
      .ok (pkgs.map noassert_package, pkgs.map google_contains_rel,
        pkgs.map missing_line)
  | [], _ => rfl
  | pkg :: rest, hs => by
    have h1 := (hs pkg (List.mem_cons_self _ _)).1
    have h2 := (hs pkg (List.mem_cons_self _ _)).2
    have hrec := manifest_walk_none_eq
      (fun p hp => hs p (List.mem_cons_of_mem _ hp))
    simp only [manifest_walk, manifest_lookup_none_ok h1 h2, hrec, List.map_cons]
    rfl

theorem manifest_walk_none_err : ∀ {pkgs : List (List Char)} {pkg : List Char},
    pkg ∈ pkgs →
    (("@maven//:".data).isPrefixOf pkg = true ∨
      ("//file:file".data).isSuffixOf pkg = true) →
    manifest_walk none pkgs =
      .error "AttributeError: NoneType object has no attribute get"
  | [], pkg, hm, _ => absurd hm (List.not_mem_nil _)
  | p :: rest, pkg, hm, hshape => by
    by_cases hp1 : ("@maven//:".data).isPrefixOf p = true
    · simp [manifest_walk, manifest_lookup, hp1]
    · by_cases hp2 : ("//file:file".data).isSuffixOf p = true
      · simp [manifest_walk, manifest_lookup, hp1, hp2]
      · have hpk : pkg ∈ rest := by
          rcases List.mem_cons.1 hm with rfl | h
          · rcases hshape with hs1 | hs2
            · exact absurd hs1 hp1
            · exact absurd hs2 hp2
          · exact h
        have hrec := manifest_walk_none_err hpk hshape
        have hlk : manifest_lookup none p = .ok none :=
          manifest_lookup_none_ok (Bool.eq_false_iff.mpr hp1)
            (Bool.eq_false_iff.mpr hp2)
        simp only [manifest_walk, hlk, hrec]

/-- C10, counterexample: in manifest mode with no Maven lock file supplied,
a manifest containing the reference `@maven//:foo` makes the assembler
raise an `AttributeError` (calling `.get` on `None`) instead of completing
with a `NOASSERTION` package. -/
theorem c10_counterexample :
    create_sbom ⟨"top".data, ["@maven//:foo".data]⟩ none [] =
      .error "AttributeError: NoneType object has no attribute get" := rfl

/-- C10, amended: with the Maven lookup table absent the manifest assembler
completes for every manifest package list in which no reference starts with
`@maven//:` or ends with `//file:file`, emitting each such package with
download location `NOASSERTION` and a `MISSING` diagnostic naming it;
a reference of either recognized shape instead makes the run raise an
`AttributeError` on the absent table. -/
theorem c10_theorem :
    (∀ (pinfo : PackageInfo) (ts : List Char),
      (∀ pkg ∈ pinfo.packages, ("@maven//:".data).isPrefixOf pkg = false ∧
          ("//file:file".data).isSuffixOf pkg = false) →
      create_sbom pinfo none ts =
        .ok ({ spdxVersion := "SPDX-2.3".data
               dataLicense := "CC0-1.0".data
               SPDXID := "SPDXRef-DOCUMENT".data
               documentNamespace :=
                 "https://spdx.google/be852459-4c54-4c50-9d2f-0e48890418fc".data
               name := pinfo.top_level_target
               creationInfo := { licenseListVersion := some []
                                 creators :=
                                   ["Tool: github.com/bazelbuild/bazel/tools/compliance/write_sbom".data,
                                    "Organization: Google LLC".data]
                                 created := ts }
               packages := pinfo.packages.map noassert_package
               relationships :=
                 { spdxElementId := "SPDXRef-DOCUMENT".data
                   relatedSpdxElement := "SPDXRef-Package-main".data
                   relationshipType := "DESCRIBES".data } ::
                 pinfo.packages.map google_contains_rel },
             pinfo.packages.map missing_line))
  ∧ (∀ pkg : List Char, (noassert_package pkg).name = pkg ∧
      (noassert_package pkg).downloadLocation = .str ("NOASSERTION".data) ∧
      missing_line pkg = "MISSING  ".data ++ pkg)
  ∧ (∀ (pinfo : PackageInfo) (ts : List Char) (pkg : List Char),
      pkg ∈ pinfo.packages →
      (("@maven//:".data).isPrefixOf pkg = true ∨
        ("//file:file".data).isSuffixOf pkg = true) →
      create_sbom pinfo none ts =
        .error "AttributeError: NoneType object has no attribute get") := by
  refine ⟨?_, fun pkg => ⟨rfl, rfl, rfl⟩, ?_⟩
  · intro pinfo ts hs
    simp only [create_sbom, manifest_walk_none_eq hs]
  · intro pinfo ts pkg hm hshape
    simp only [create_sbom, manifest_walk_none_err hm hshape]

theorem c10_witness :
    create_sbom ⟨"top".data, ["plain".data]⟩ none [] =
      .ok ({ spdxVersion := "SPDX-2.3".data
             dataLicense := "CC0-1.0".data
             SPDXID := "SPDXRef-DOCUMENT".data
             documentNamespace :=
               "https://spdx.google/be852459-4c54-4c50-9d2f-0e48890418fc".data
             name := "top".data
             creationInfo := { licenseListVersion := some []
                               creators :=
                                 ["Tool: github.com/bazelbuild/bazel/tools/compliance/write_sbom".data,
                                  "Organization: Google LLC".data]
                               created := [] }
             packages := (["plain".data]).map noassert_package
             relationships :=
               { spdxElementId := "SPDXRef-DOCUMENT".data
                 relatedSpdxElement := "SPDXRef-Package-main".data
                 relationshipType := "DESCRIBES".data } ::
               (["plain".data]).map google_contains_rel },
           (["plain".data]).map missing_line)
  ∧ create_sbom ⟨"top".data, ["@maven//:foo".data]⟩ none [] =
      .error "AttributeError: NoneType object has no attribute get" :=
  ⟨c10_theorem.1 ⟨"top".data, ["plain".data]⟩ []
      (fun pkg hpkg => by
        rcases List.mem_singleton.1 hpkg with rfl
        exact ⟨by decide, by decide⟩),
   c10_theorem.2.2 ⟨"top".data, ["@maven//:foo".data]⟩ [] ("@maven//:foo".data)
      (List.mem_singleton.mpr rfl) (Or.inl (by decide))⟩

/-! ## Claim C2 -/

theorem lookup_isSome_of_mem :
    ∀ {l : List (List Char × MavenLockMeta)} {c : List Char} {m : MavenLockMeta},
    (c, m) ∈ l → (l.lookup c).isSome = true
  | [], c, m, hm => absurd hm (List.not_mem_nil _)
  | (k, v) :: rest, c, m, hm => by
    rcases List.mem_cons.1 hm with heq | h
    · have hck : c = k := congrArg Prod.fst heq
      subst hck
      simp [List.lookup]
    · by_cases hck : (c == k) = true
      · simp [List.lookup, hck]
      · simp only [List.lookup, hck]
        exact lookup_isSome_of_mem h

/-- C2: in manifest mode with a Maven lock file supplied, the resolver
turns the lock mapping into the lookup table (every resolved coordinate is
looked up successfully), that table is what the manifest assembler is
called with, the assembler cannot raise, and the invocation completes
producing exactly one output document. -/
theorem c2_theorem : ∀ (base ts : List Char) (pinfo : PackageInfo)
    (mi : List (List Char × MavenLockMeta)),
    (∀ (c : List Char) (m : MavenLockMeta), (c, m) ∈ mi →
        ((maven_install_to_packages mi).lookup c).isSome = true)
  ∧ (create_sbom pinfo (some (maven_install_to_packages mi)) ts).toOption.isSome
      = true
  ∧ main_run base ts (.modeB pinfo (some mi)) =
      (create_sbom pinfo (some (maven_install_to_packages mi)) ts).map
        (fun r => [r.1])
  ∧ (∀ docs, main_run base ts (.modeB pinfo (some mi)) = .ok docs →
      docs.length = 1) := by
  intro base ts pinfo mi
  have hmap : ∀ (c : List Char) (m : MavenLockMeta), (c, m) ∈ mi →
      (c, ({ url := m.url } : MavenLockMeta)) ∈ maven_install_to_packages mi :=
    fun c m hm => List.mem_map.2 ⟨(c, m), hm, rfl⟩
  refine ⟨fun c m hm => lookup_isSome_of_mem (hmap c m hm), ?_, ?_, ?_⟩
  · obtain ⟨⟨ps, rs, ds⟩, hout⟩ :=
      manifest_walk_some_ok (t := maven_install_to_packages mi) pinfo.packages
    simp [create_sbom, hout, Except.toOption]
  · cases hcs : create_sbom pinfo (some (maven_install_to_packages mi)) ts with
    | error e => simp [main_run, Option.map, hcs, Except.map]
    | ok out => simp [main_run, Option.map, hcs, Except.map]
  · intro docs h
    cases hcs : create_sbom pinfo (some (maven_install_to_packages mi)) ts with
    | error e =>
      rw [show main_run base ts (.modeB pinfo (some mi)) = .error e by
        simp [main_run, Option.map, hcs]] at h
      exact Except.noConfusion h
    | ok out =>
      obtain ⟨s, d⟩ := out
      rw [show main_run base ts (.modeB pinfo (some mi)) = .ok [s] by
        simp [main_run, Option.map, hcs]] at h
      injection h with h
      subst h
      rfl

theorem c2_witness :
    ((maven_install_to_packages [("g:a".data, ⟨"https://u".data⟩)]).lookup
        ("g:a".data)).isSome = true
  ∧ (create_sbom ⟨"top".data, []⟩
        (some (maven_install_to_packages [("g:a".data, ⟨"https://u".data⟩)]))
        []).toOption.isSome = true :=
  ⟨(c2_theorem [] [] ⟨"top".data, []⟩ [("g:a".data, ⟨"https://u".data⟩)]).1
      ("g:a".data) ⟨"https://u".data⟩ (List.mem_singleton.mpr rfl),
   (c2_theorem [] [] ⟨"top".data, []⟩ [("g:a".data, ⟨"https://u".data⟩)]).2.1⟩

/-! ## Claims C5 and C6: locating the repository marker -/

theorem maven_marker_idx_eq_neg_one {url : List Char}
    (h1 : ∀ i, i < url.length → ¬ ("/maven2/".data <+: url.drop i))
    (h2 : ∀ i, i < url.length → ¬ ("/repository/".data <+: url.drop i)) :
    maven_marker_idx url = -1 := by
  have f1 : pyFind url ("/maven2/".data) = -1 :=
    pyFind_eq_neg_one (by decide) h1
  have f2 : pyFind url ("/repository/".data) = -1 :=
    pyFind_eq_neg_one (by decide) h2
  simp [maven_marker_idx, f1, f2]

theorem marker_idx_maven2 {pre rest : List Char}
    (hfirst : ∀ i, i < pre.length →
      ¬ ("/maven2/".data <+: (pre ++ "/maven2/".data ++ rest).drop i)) :
    maven_marker_idx (pre ++ "/maven2/".data ++ rest) =
      ((pre.length + 8 : Nat) : Int) := by
  have hk : "/maven2/".data <+:
      (pre ++ "/maven2/".data ++ rest).drop pre.length := by
    rw [List.append_assoc, List.drop_left]
    exact List.prefix_append _ _
  have hf := pyFind_eq_of_first hk hfirst
  rw [maven_marker_idx]
  simp only [hf]
  rw [if_pos (by omega)]
  omega

theorem marker_idx_repo {pre rest : List Char}
    (hno : ∀ i, i < (pre ++ "/repository/".data ++ rest).length →
      ¬ ("/maven2/".data <+: (pre ++ "/repository/".data ++ rest).drop i))
    (hfirst : ∀ i, i < pre.length →
      ¬ ("/repository/".data <+: (pre ++ "/repository/".data ++ rest).drop i)) :
    maven_marker_idx (pre ++ "/repository/".data ++ rest) =
      ((pre.length + 12 : Nat) : Int) := by
  have f1 : pyFind (pre ++ "/repository/".data ++ rest) ("/maven2/".data) = -1 :=
    pyFind_eq_neg_one (by decide) hno
  have hk : "/repository/".data <+:
      (pre ++ "/repository/".data ++ rest).drop pre.length := by
    rw [List.append_assoc, List.drop_left]
    exact List.prefix_append _ _
  have hf := pyFind_eq_of_first hk hfirst
  rw [maven_marker_idx]
  simp only [f1, hf]
  rw [if_neg (by omega), if_pos (by omega)]
  omega

/-- On a slash-joined list of nonempty slash-free segments, the outer strip
is the identity and the split recovers the segments. -/
theorem strip_split_joinSep {segs : List (List Char)} (hne : segs ≠ [])
    (hall : ∀ s ∈ segs, s ≠ [] ∧ ('/' : Char) ∉ s) :
    pySplitAll '/' (pyStrip (fun c => c = '/') (joinSep '/' segs)) = segs := by
  obtain ⟨s0, rest, rfl⟩ : ∃ s0 rest, segs = s0 :: rest := by
    cases segs with
    | nil => exact absurd rfl hne
    | cons s0 rest => exact ⟨s0, rest, rfl⟩
  obtain ⟨c, m, hcm⟩ : ∃ c m, s0 = c :: m := by
    cases hs0 : s0 with
    | nil => exact absurd hs0 (hall s0 (List.mem_cons_self _ _)).1
    | cons c m => exact ⟨c, m, rfl⟩
  obtain ⟨t0, ht0⟩ := @joinSep_head '/' s0 rest
  rcases (s0 :: rest).eq_nil_or_concat with habs | ⟨init, f, hconcat⟩
  · exact absurd habs (List.cons_ne_nil _ _)
  obtain ⟨d, f0, hdf⟩ : ∃ d f0, f = f0 ++ [d] := by
    have hfmem : f ∈ s0 :: rest := by
      rw [hconcat, List.concat_eq_append]
      exact List.mem_append.2 (Or.inr (List.mem_singleton_self _))
    rcases f.eq_nil_or_concat with hf | ⟨f0, d, hf⟩
    · exact absurd hf (hall f hfmem).1
    · exact ⟨d, f0, by simpa [List.concat_eq_append] using hf⟩
  have hlast : ∃ t, joinSep '/' (s0 :: rest) = t ++ [d] := by
    obtain ⟨t, ht⟩ := @joinSep_last '/' init f
    rw [hconcat, List.concat_eq_append, ht, hdf, ← List.append_assoc]
    exact ⟨t ++ f0, rfl⟩
  have hcnot : ¬ (decide (c = '/') = true) := by
    have hs0slash : ('/' : Char) ∉ s0 := (hall s0 (List.mem_cons_self _ _)).2
    simp only [decide_eq_true_eq]
    intro hcslash
    apply hs0slash
    rw [← hcslash, hcm]
    exact List.mem_cons_self _ _
  have hdnot : ¬ (decide (d = '/') = true) := by
    have hfmem : f ∈ s0 :: rest := by
      rw [hconcat, List.concat_eq_append]
      exact List.mem_append.2 (Or.inr (List.mem_singleton_self _))
    have hfslash : ('/' : Char) ∉ f := (hall f hfmem).2
    simp only [decide_eq_true_eq]
    intro hdslash
    apply hfslash
    rw [← hdslash, hdf]
    exact List.mem_append.2 (Or.inr (List.mem_singleton_self _))
  have hstrip : pyStrip (fun c => c = '/') (joinSep '/' (s0 :: rest)) =
      joinSep '/' (s0 :: rest) := by
    refine pyStrip_eq_self (c := c) (m := m ++ t0) ?_ hcnot hlast hdnot
    rw [ht0, hcm, List.cons_append]
  rw [hstrip]
  exact joinSep_split hne (fun s hs => (hall s hs).2)

theorem not_underscore_hyphenate (s : List Char) : ('_' : Char) ∉ hyphenate s := by
  intro hm
  obtain ⟨c, hc, hcc⟩ := List.mem_map.1 hm
  by_cases h : c = '_'
  · rw [if_pos h] at hcc
    exact absurd hcc (by decide)
  · rw [if_neg h] at hcc
    exact h hcc

/-- A located marker plus a well-shaped remaining path determines the
extracted coordinates. -/
theorem extract_resolved {url : List Char} {gs : List (List Char)}
    {a v f : List Char} {n : Nat}
    (hidx : maven_marker_idx url = (n : Int))
    (hdrop : url.drop n = joinSep '/' (gs ++ [a, v, f]))
    (hne : gs ≠ [])
    (hall : ∀ s ∈ gs ++ [a, v, f], s ≠ [] ∧ ('/' : Char) ∉ s) :
    extract_maven_info_from_url url =
      (some (joinSep '.' gs), some (hyphenate a), some v,
        ("sources.jar".data).isSuffixOf f) := by
  have hsegs : maven_path_segments url = some (gs ++ [a, v, f]) := by
    unfold maven_path_segments
    rw [hidx, if_neg (by omega)]
    have htn : ((n : Int)).toNat = n := by omega
    rw [htn, hdrop, strip_split_joinSep (by simp) hall]
  simp only [extract_maven_info_from_url, hsegs]
  have hrev : (gs ++ [a, v, f]).reverse = f :: v :: a :: gs.reverse := by simp
  rw [hrev]
  rcases hgs : gs.reverse with _ | ⟨g, grest⟩
  · exact absurd (List.reverse_eq_nil_iff.1 hgs) hne
  · have hback : (g :: grest).reverse = gs := by
      rw [← hgs, List.reverse_reverse]
    simp only [hback]

/-- C6: `extract_maven_info_from_url` returns the explicit absence marker
`(none, none, none, false)` — never partial coordinate data — both for
every URL in which neither recognized marker occurs, and for every URL
whose path after the located marker splits into fewer than 4 segments.
(As a Lean function over `List Char` it is total by construction: no
string indexing can escape bounds.) -/
theorem c6_theorem :
    (∀ url : List Char,
      (∀ i, i < url.length → ¬ ("/maven2/".data <+: url.drop i)) →
      (∀ i, i < url.length → ¬ ("/repository/".data <+: url.drop i)) →
      extract_maven_info_from_url url = (none, none, none, false))
  ∧ (∀ (url : List Char) (segs : List (List Char)),
      maven_path_segments url = some segs → segs.length < 4 →
      extract_maven_info_from_url url = (none, none, none, false)) := by
  constructor
  · intro url h1 h2
    have hidx := maven_marker_idx_eq_neg_one h1 h2
    have hsegs : maven_path_segments url = none := by
      simp [maven_path_segments, hidx]
    simp [extract_maven_info_from_url, hsegs]
  · intro url segs hsegs hlen
    simp only [extract_maven_info_from_url, hsegs]
    rcases segs with _ | ⟨s1, _ | ⟨s2, _ | ⟨s3, _ | ⟨s4, ss⟩⟩⟩⟩
    · rfl
    · rfl
    · rfl
    · rfl
    · simp only [List.length_cons] at hlen
      omega

theorem c6_witness :
    extract_maven_info_from_url ("http://example.com/foo".data) =
      (none, none, none, false)
  ∧ extract_maven_info_from_url ("/maven2/a/b".data) =
      (none, none, none, false) :=
  ⟨c6_theorem.1 ("http://example.com/foo".data) (by decide) (by decide),
   c6_theorem.2 ("/maven2/a/b".data) ["a".data, "b".data] rfl (by decide)⟩

/-! ## Claim C5 -/

/-- C5, counterexample: `groupId` is joined from the leading segments with
no underscore rewriting, so a URL whose group path contains an underscore
yields a groupId with a literal underscore — refuting the claim's "the
returned groupId and artifactId never contain a literal underscore". -/
theorem c5_counterexample :
    extract_maven_info_from_url ("http://r/maven2/a_b/c/1.0/c-1.0.jar".data) =
      (some ("a_b".data), some ("c".data), some ("1.0".data), false)
  ∧ ('_' : Char) ∈ "a_b".data :=
  ⟨rfl, by decide⟩

/-- C5, amended: for a URL whose first marker occurrence is followed by at
least 4 well-shaped path segments, the parser returns the trailing
segments joined with `.` as groupId (underscores preserved), the
third-from-last segment with underscores rewritten to hyphens as
artifactId (hence artifactId never contains an underscore), the
second-from-last segment as version, and isSources true iff the final
filename segment ends with `sources.jar`. -/
theorem c5_theorem :
    (∀ (pre : List Char) (gs : List (List Char)) (a v f : List Char),
      gs ≠ [] →
      (∀ s ∈ gs ++ [a, v, f], s ≠ [] ∧ ('/' : Char) ∉ s) →
      (∀ i, i < pre.length →
        ¬ ("/maven2/".data <+:
            (pre ++ "/maven2/".data ++ joinSep '/' (gs ++ [a, v, f])).drop i)) →
      extract_maven_info_from_url
          (pre ++ "/maven2/".data ++ joinSep '/' (gs ++ [a, v, f])) =
        (some (joinSep '.' gs), some (hyphenate a), some v,
          ("sources.jar".data).isSuffixOf f)
      ∧ ('_' : Char) ∉ hyphenate a)
  ∧ (∀ (pre : List Char) (gs : List (List Char)) (a v f : List Char),
      gs ≠ [] →
      (∀ s ∈ gs ++ [a, v, f], s ≠ [] ∧ ('/' : Char) ∉ s) →
      (∀ i, i < (pre ++ "/repository/".data ++ joinSep '/' (gs ++ [a, v, f])).length →
        ¬ ("/maven2/".data <+:
            (pre ++ "/repository/".data ++ joinSep '/' (gs ++ [a, v, f])).drop i)) →
      (∀ i, i < pre.length →
        ¬ ("/repository/".data <+:
            (pre ++ "/repository/".data ++ joinSep '/' (gs ++ [a, v, f])).drop i)) →
      extract_maven_info_from_url
          (pre ++ "/repository/".data ++ joinSep '/' (gs ++ [a, v, f])) =
        (some (joinSep '.' gs), some (hyphenate a), some v,
          ("sources.jar".data).isSuffixOf f)
      ∧ ('_' : Char) ∉ hyphenate a) := by
  constructor
  · intro pre gs a v f hne hall hfirst
    refine ⟨?_, not_underscore_hyphenate a⟩
    refine extract_resolved (n := pre.length + 8)
      (marker_idx_maven2 hfirst) ?_ hne hall
    have hm2len : ("/maven2/".data).length = 8 := by decide
    have hlen8 : (pre ++ "/maven2/".data).length = pre.length + 8 := by
      rw [List.length_append, hm2len]
    exact List.drop_left' hlen8
  · intro pre gs a v f hne hall hno hfirst
    refine ⟨?_, not_underscore_hyphenate a⟩
    refine extract_resolved (n := pre.length + 12)
      (marker_idx_repo hno hfirst) ?_ hne hall
    have hrlen : ("/repository/".data).length = 12 := by decide
    have hlen12 : (pre ++ "/repository/".data).length = pre.length + 12 := by
      rw [List.length_append, hrlen]
    exact List.drop_left' hlen12

theorem c5_witness :
    extract_maven_info_from_url
        ("http://r".data ++ "/maven2/".data ++
          joinSep '/' (["com".data, "example".data] ++
            ["foo-bar".data, "1.2.3".data, "foo-bar-1.2.3.jar".data])) =
      (some (joinSep '.' ["com".data, "example".data]),
        some (hyphenate ("foo-bar".data)), some ("1.2.3".data),
        ("sources.jar".data).isSuffixOf ("foo-bar-1.2.3.jar".data))
  ∧ ('_' : Char) ∉ hyphenate ("foo-bar".data) :=
  c5_theorem.1 ("http://r".data) ["com".data, "example".data] ("foo-bar".data)
    ("1.2.3".data) ("foo-bar-1.2.3.jar".data) (by decide) (by decide) (by decide)

end WriteSbom
